import Mathlib

/-!
Shallow embedding of the ONC Toolbox QA/QC core: the flag tests of
`src/ONCToolbox/qaqc.py`, the period segmentation of
`src/ONCToolbox/utils/core.py` (`split_periods`), and the profile
classifier of `src/ONCToolbox/utils/profilers.py` (`identify_profiles`).

Modelling conventions:
* A float value that may be NaN (numpy `nan`, the missing sentinel) is
  `Option ℚ`, with `none` playing the role of NaN.  Arithmetic
  propagates `none`; every ordered comparison against `none` is `false`,
  mirroring IEEE NaN comparison semantics used by numpy/xarray.
* `DataArray.where(cond, other)` keeps the current value where `cond`
  holds and writes `other` where it does not; `xr.where(cond, a, b)`
  selects `a` where `cond` holds.  Both become `if`-chains per sample.
* Standard deviations are irrational over ℚ, so every comparison of the
  form `x ≤ m·std` or `x > m·std` is carried algebraically through the
  variance (`std = √variance`); each such encoding is spelled out at its
  definition and is exactly equivalent to the float comparison.
* Timestamps are integers (seconds); `timedelta64(k, 's')` is the
  integer `k`.
* Python exceptions become `Except PyError`.
-/

namespace ONCToolbox

/-- A float that may be NaN/missing: `none` models NaN. -/
abbrev RFloat := Option ℚ

/-- NaN-propagating addition. -/
def radd : RFloat → RFloat → RFloat
  | some a, some b => some (a + b)
  | _, _ => none

/-- NaN-propagating subtraction. -/
def rsub : RFloat → RFloat → RFloat
  | some a, some b => some (a - b)
  | _, _ => none

/-- NaN-propagating division.  Division by zero is mapped to `none`;
IEEE would give ±inf, but the data model guarantees strictly increasing
timestamps, so a zero denominator never occurs in the claims below. -/
def rdiv : RFloat → RFloat → RFloat
  | some a, some b => if b = 0 then none else some (a / b)
  | _, _ => none

/-- `np.abs`: NaN maps to NaN. -/
def rabs : RFloat → RFloat := Option.map (fun x => |x|)

/-- Float `<`: any comparison involving NaN is false. -/
def rlt : RFloat → RFloat → Bool
  | some a, some b => decide (a < b)
  | _, _ => false

/-- Float `>`: any comparison involving NaN is false. -/
def rgt : RFloat → RFloat → Bool
  | some a, some b => decide (b < a)
  | _, _ => false

/-! The flag taxonomy of `qaqc.py` (`class FLAG`). -/

namespace FLAG

def NOT_EVALUATED : Int := 0

def PASS : Int := 1

def HIGH_INTEREST : Int := 2

def SUSPECT : Int := 3

def FAIL : Int := 4

def MISSING_DATA : Int := 9

end FLAG

/-- The xarray inner join performed implicitly by every binary operation
between the latitude and longitude arrays in `location_test`: the pairs
of values at timestamps common to both series, in the order of the first
series.  (`List.lookup` finds the value stored in `lons` at a given
timestamp.) -/
def alignedPairs (lats lons : List (ℤ × RFloat)) : List (ℤ × RFloat × RFloat) :=
  lats.filterMap (fun p => (List.lookup p.1 lons).map (fun lo => (p.1, p.2, lo)))

/-- Per-sample body of `location_test` (qaqc.py lines 21-24):
```
flag = NOT_EVALUATED
flag = flag.where((np.abs(latitude) < 90) | (np.abs(longitude) < 180), FAIL)
flag = flag.where((np.abs(latitude) > 90) & (np.abs(longitude) > 180), PASS)
flag = flag.where(~np.isnan(latitude) | ~np.isnan(longitude), MISSING_DATA)
```
`flag.where(cond, other)` keeps `flag` where `cond` is true and writes
`other` where it is false. -/
def location_flag (lat lon : RFloat) : Int :=
  let f := FLAG.NOT_EVALUATED
  let f := if rlt (rabs lat) (some 90) || rlt (rabs lon) (some 180) then f else FLAG.FAIL
  let f := if rgt (rabs lat) (some 90) && rgt (rabs lon) (some 180) then f else FLAG.PASS
  if lat.isSome || lon.isSome then f else FLAG.MISSING_DATA

/-- `location_test` (qaqc.py lines 13-31).  The xarray element-wise
operations silently align the two inputs on their common timestamps
(inner join); the result carries the aligned time coordinate. -/
def location_test (lats lons : List (ℤ × RFloat)) : List (ℤ × Int) :=
  (alignedPairs lats lons).map (fun x => (x.1, location_flag x.2.1 x.2.2))

/-- Per-sample body of `gross_range_test` (qaqc.py lines 49-61):
```
flag = NOT_EVALUATED
flag = flag.where((data < sensor_min) & (data > sensor_max), PASS)
flag = flag.where((data > sensor_min) | (data < sensor_max), FAIL)
if operator_min is not None and sensor_min != operator_min:
    flag = flag.where((data > operator_min) | (data < sensor_min), SUSPECT)
if operator_max is not None and sensor_max != operator_max:
    flag = flag.where((data < operator_max) | (data > sensor_max), SUSPECT)
flag = flag.where(~np.isnan(data), MISSING_DATA)
``` -/
def gross_range_flag (sensor_min sensor_max : ℚ) (operator_min operator_max : Option ℚ)
    (v : RFloat) : Int :=
  let f := FLAG.NOT_EVALUATED
  let f := if rlt v (some sensor_min) && rgt v (some sensor_max) then f else FLAG.PASS
  let f := if rgt v (some sensor_min) || rlt v (some sensor_max) then f else FLAG.FAIL
  let f := match operator_min with
    | none => f
    | some om =>
      if sensor_min ≠ om then
        (if rgt v (some om) || rlt v (some sensor_min) then f else FLAG.SUSPECT)
      else f
  let f := match operator_max with
    | none => f
    | some om =>
      if sensor_max ≠ om then
        (if rlt v (some om) || rgt v (some sensor_max) then f else FLAG.SUSPECT)
      else f
  if v.isSome then f else FLAG.MISSING_DATA

/-- `gross_range_test` (qaqc.py lines 34-79): all operations are
element-wise, so the test is a map of the per-sample body. -/
def gross_range_test (data : List RFloat) (sensor_min sensor_max : ℚ)
    (operator_min operator_max : Option ℚ) : List Int :=
  data.map (gross_range_flag sensor_min sensor_max operator_min operator_max)

/-- Population variance (ddof = 0, the xarray/bottleneck default) of a
list of rationals, `E[x²] − E[x]²`, exactly as `np.nanstd` squared. -/
def varianceQ (l : List ℚ) : ℚ :=
  (l.map (fun x => x ^ 2)).sum / (l.length : ℚ) - (l.sum / (l.length : ℚ)) ^ 2

/-- The trailing window of width `w` ending at position `i`
(xarray `rolling({'time': w})`): positions `i−w+1 … i`, clipped at the
start of the series.  The NaN padding xarray inserts before position 0
is irrelevant because the reductions applied to these windows skip NaN. -/
def trailingWindow (vs : List RFloat) (w i : Nat) : List RFloat :=
  (vs.drop (i + 1 - w)).take (i + 1 - (i + 1 - w))

/-- The centered window of half-width `s` around position `i`
(xarray `rolling({'time': 2*s+1}, center=True)`): positions
`i−s … i+s`, clipped at both ends of the series. -/
def centeredWindow (vs : List RFloat) (s i : Nat) : List RFloat :=
  (vs.drop (i - s)).take (i + s + 1 - (i - s))

/-- The float comparison `std(window) ≤ m` where `std` skips NaN
(`DataArray.std`, skipna and ddof = 0): an all-NaN window has std NaN and
the comparison is false; otherwise `√variance ≤ m ⟺ 0 ≤ m ∧ variance ≤ m²`,
which is how the irrational square root is carried over ℚ. -/
def stdLe (w : List RFloat) (m : ℚ) : Bool :=
  let present := w.reduceOption
  if present.isEmpty then false
  else decide (0 ≤ m) && decide (varianceQ present ≤ m ^ 2)

/-- Per-sample body of `flat_line_test` (qaqc.py lines 144-155):
```
wfstd = data.rolling({'time': fail_half*2+1}).construct('window').std('window')
wsstd = data.rolling({'time': suspect_half*2+1}).construct('window').std('window')
flag = NOT_EVALUATED
flag = xr.where(wsstd <= max_allowed_std, SUSPECT, flag)
flag = xr.where(wfstd <= max_allowed_std, FAIL, flag)
flag = xr.where(flag == NOT_EVALUATED, PASS, flag)
``` -/
def flat_line_flagAt (vs : List RFloat) (max_allowed_std : ℚ)
    (fail_half_window_size suspect_half_window_size : Nat) (i : Nat) : Int :=
  let f := FLAG.NOT_EVALUATED
  let f := if stdLe (trailingWindow vs (2 * suspect_half_window_size + 1) i) max_allowed_std
           then FLAG.SUSPECT else f
  let f := if stdLe (trailingWindow vs (2 * fail_half_window_size + 1) i) max_allowed_std
           then FLAG.FAIL else f
  if f = FLAG.NOT_EVALUATED then FLAG.PASS else f

/-- The flag series of `flat_line_test`, one flag per input position. -/
def flat_line_flags (vs : List RFloat) (max_allowed_std : ℚ)
    (fail_half_window_size suspect_half_window_size : Nat) : List Int :=
  (List.range vs.length).map
    (flat_line_flagAt vs max_allowed_std fail_half_window_size suspect_half_window_size)

/-- `flat_line_test` (qaqc.py lines 128-166) on a time-indexed series:
the flags are positional and aligned with the input timestamps. -/
def flat_line_test (series : List (ℤ × RFloat)) (max_allowed_std : ℚ)
    (fail_half_window_size suspect_half_window_size : Nat) : List (ℤ × Int) :=
  (series.map Prod.fst).zip
    (flat_line_flags (series.map Prod.snd) max_allowed_std
      fail_half_window_size suspect_half_window_size)

/-- Stable sort of a time-indexed series by timestamp (`data.sortby('time')`). -/
def sortTime (series : List (ℤ × RFloat)) : List (ℤ × RFloat) :=
  List.insertionSort (fun a b => a.1 ≤ b.1) series

/-- The spike-test reference value at position `i` (qaqc.py lines 97-100):
```
spkref_windows = data.rolling({'time': spike_half_window*2+1}, min_periods=1).construct('window')
spkref = (spkref_windows[:, 0] + spkref_windows[:, -1]) / 2
```
The rolling window is *trailing* (no `center=True`), so slot 0 of the
window at position `i` is the value at position `i − 2h` (NaN padding if
that lies before the series start) and slot −1 is the value at position
`i` itself. -/
def spikeRefAt (vs : List RFloat) (h i : Nat) : RFloat :=
  let left : RFloat := if 2 * h ≤ i then vs.getD (i - 2 * h) none else none
  let right : RFloat := vs.getD i none
  (radd left right).map (fun x => x / 2)

/-- The local-variability estimate of the spike test at position `i`
(qaqc.py line 102, `rolling(2s+1, center=True, min_periods=1).std()`),
carried as the variance: it is defined exactly when the centered window
holds at least one present value, and its square root is the float std. -/
def spikeSdVar (vs : List RFloat) (s i : Nat) : Option ℚ :=
  let present := (centeredWindow vs s i).reduceOption
  if present.isEmpty then none else some (varianceQ present)

/-- The float comparison `|d − ref| < m·√v` with NaN giving false;
for `m > 0` it is `(d−ref)² < m²·v`, and for `m ≤ 0` the right side is
`≤ 0` so the strict comparison is false. -/
def spikeLt (d ref : RFloat) (m : ℚ) (v : Option ℚ) : Bool :=
  match d, ref, v with
  | some d', some r', some v' =>
    if m ≤ 0 then false else decide ((d' - r') ^ 2 < m ^ 2 * v')
  | _, _, _ => false

/-- The float comparison `|d − ref| > m·√v` with NaN giving false;
for `m ≥ 0` it is `(d−ref)² > m²·v`; for `m < 0` the right side is
negative unless `v = 0`, where it is zero. -/
def spikeGt (d ref : RFloat) (m : ℚ) (v : Option ℚ) : Bool :=
  match d, ref, v with
  | some d', some r', some v' =>
    if m < 0 then decide (0 < v') || decide (0 < (d' - r') ^ 2)
    else decide (m ^ 2 * v' < (d' - r') ^ 2)
  | _, _, _ => false

/-- Per-sample body of `spike_test` (qaqc.py lines 106-114):
```
flag = NOT_EVALUATED
flag = flag.where(~(|d-ref| < tl) & ~(|d-ref| > th), PASS)
flag = flag.where((|d-ref| < tl) | (|d-ref| > th), HIGH_INTEREST)
flag = flag.where(~(|d-ref| > th), FAIL)
flag = flag.where(~np.isnan(data), MISSING_DATA)
flag = flag.where(~np.isnan(spkref), MISSING_DATA)
flag = flag.where(~np.isnan(tl) | ~np.isnan(th), NOT_EVALUATED)
```
where `tl = low_multiplier * sd` and `th = high_multiplier * sd`; the
thresholds are NaN exactly when `sd` is NaN, i.e. when `spikeSdVar` is
`none`. -/
def spikeFlagAt (vs : List RFloat) (h s : Nat) (lm hm : ℚ) (i : Nat) : Int :=
  let d := vs.getD i none
  let ref := spikeRefAt vs h i
  let v := spikeSdVar vs s i
  let lt := spikeLt d ref lm v
  let gt := spikeGt d ref hm v
  let f := FLAG.NOT_EVALUATED
  let f := if !lt && !gt then f else FLAG.PASS
  let f := if lt || gt then f else FLAG.HIGH_INTEREST
  let f := if !gt then f else FLAG.FAIL
  let f := if d.isSome then f else FLAG.MISSING_DATA
  let f := if ref.isSome then f else FLAG.MISSING_DATA
  if v.isSome then f else FLAG.NOT_EVALUATED

/-- `spike_test` (qaqc.py lines 82-125): sorts by time, then classifies
each position of the sorted series. -/
def spike_test (series : List (ℤ × RFloat)) (spike_half_window std_half_window : Nat)
    (low_multiplier high_multiplier : ℚ) : List Int :=
  let vs := (sortTime series).map Prod.snd
  (List.range vs.length).map
    (spikeFlagAt vs spike_half_window std_half_window low_multiplier high_multiplier)

/-- The rate series of `rate_of_change_test` (qaqc.py lines 172-176):
first differences of value over elapsed seconds, with NaN prepended for
the first sample (`np.concatenate([[nan], delta_data / delta_time])`). -/
def rocRates (series : List (ℤ × RFloat)) : List RFloat :=
  none :: ((series.zip series.tail).map
    (fun p => rdiv (rsub p.2.2 p.1.2) (some ((p.2.1 : ℚ) - (p.1.1 : ℚ)))))

/-- The float comparison `np.abs(rate) > std_multiplier * rate.std()`
(qaqc.py line 178).  `rate.std()` is the plain numpy standard deviation
of the whole rate array: if any entry is NaN (the prepended first entry
always is) the std is NaN and the comparison is false.  Otherwise, for
`m ≥ 0`, `|q| > m·√variance ⟺ q² > m²·variance`. -/
def rocExceeds (m : ℚ) (rates : List RFloat) (r : RFloat) : Bool :=
  match r with
  | none => false
  | some q =>
    if rates.any (fun x => x.isNone) || rates.isEmpty then false
    else
      let v := varianceQ rates.reduceOption
      if m < 0 then decide (0 < v) || decide (0 < q ^ 2)
      else decide (m ^ 2 * v < q ^ 2)

/-- `rate_of_change_test` (qaqc.py lines 170-189):
```
flag = NOT_EVALUATED
flag = flag.where(np.abs(rate) > std_multiplier * rate.std(), PASS)
flag = flag.where(~(np.abs(rate) > std_multiplier * rate.std()), HIGH_INTEREST)
flag = flag.where(~np.isnan(data), MISSING_DATA)
flag = flag.where(~np.isnan(rate), MISSING_DATA)
``` -/
def rate_of_change_test (series : List (ℤ × RFloat)) (std_multiplier : ℚ) : List Int :=
  let rates := rocRates series
  (series.zip rates).map (fun p =>
    let v := p.1.2
    let r := p.2
    let e := rocExceeds std_multiplier rates r
    let f := if e then FLAG.NOT_EVALUATED else FLAG.PASS
    let f := if !e then f else FLAG.HIGH_INTEREST
    let f := if v.isSome then f else FLAG.MISSING_DATA
    if r.isSome then f else FLAG.MISSING_DATA)

/-- A Python exception, by class. -/
inductive PyError
  | indexError
  | valueError
  | keyError
deriving DecidableEq

/-- A segmentation period record (`{'begin_datetime': …, 'end_datetime': …}`). -/
structure Period where
  begin_datetime : ℤ
  end_datetime : ℤ
deriving DecidableEq

/-- The break points of `split_periods` (utils/core.py line 90):
timestamps whose difference to their predecessor strictly exceeds
`min_gap` (`diff('time') > np.timedelta64(min_gap, 's')` with the upper
label, then `where(..., drop=True)`). -/
def breakPoints (min_gap : ℤ) : List ℤ → List ℤ
  | a :: b :: rest => (if b - a > min_gap then [b] else []) ++ breakPoints min_gap (b :: rest)
  | _ => []

/-- `da_time.sel(time=slice(start, stop))` on a list of timestamps:
label-based slicing is inclusive at both ends; `stop = none` means an
unbounded right end. -/
def selTimes (ts : List ℤ) (start : ℤ) (stop : Option ℤ) : List ℤ :=
  ts.filter (fun t => decide (start ≤ t) &&
    (match stop with
     | none => true
     | some s => decide (t ≤ s)))

/-- Lines 105-110 of utils/core.py: skip a selection with zero samples,
otherwise record its min and max timestamp as the period bounds. -/
def toPeriod (sel : List ℤ) : Option Period :=
  match sel.min?, sel.max? with
  | some b, some e => some ⟨b, e⟩
  | _, _ => none

/-- The body of the `for dt in dts` loop of `split_periods`
(utils/core.py lines 96-110): if `dt` equals the last entry of `dts` the
slice is unbounded on the right, otherwise it stops 30 seconds before
the entry after the first occurrence of `dt` (`dts.index(dt)`). -/
def periodOf (ts dts : List ℤ) (dt : ℤ) : Option Period :=
  let stop : Option ℤ :=
    if dts.getLast? = some dt then none
    else
      match dts.findIdx? (fun x => x == dt) with
      | some i => (dts[i + 1]?).map (fun x => x - 30)
      | none => none
  toPeriod (selTimes ts dt stop)

/-- `split_periods` (utils/core.py lines 77-115).  The input is the list
of timestamps of the series; it is sorted first.  On an empty input,
`da_time.time.min()` raises (numpy reduction of a zero-size array); when
no consecutive difference exceeds `min_gap` the break-point list is
empty and `dts[0]` on line 92 raises `IndexError`.  Otherwise the series
minimum is prepended when it is not already the first break point, the
loop collects the non-empty periods, and an empty result falls back to
one full-range period (lines 111-114). -/
def split_periods (ts0 : List ℤ) (min_gap : ℤ) : Except PyError (List Period) :=
  let ts := List.insertionSort (fun a b => a ≤ b) ts0
  match ts.min?, ts.max? with
  | some tmin, some tmax =>
    match breakPoints min_gap ts with
    | [] => .error .indexError
    | d0 :: drest =>
      let dts := if tmin ≠ d0 then tmin :: d0 :: drest else d0 :: drest
      let periods := dts.filterMap (periodOf ts dts)
      let periods := if periods.isEmpty then [⟨tmin, tmax⟩] else periods
      .ok periods
  | _, _ => .error .valueError

/-- Decidable equality of `Except` results, for evaluating the embedded
functions on concrete inputs. -/
instance {ε α : Type} [DecidableEq ε] [DecidableEq α] : DecidableEq (Except ε α) := fun x y =>
  match x, y with
  | .error a, .error b => decidable_of_iff (a = b) (by simp)
  | .error _, .ok _ => isFalse (by simp)
  | .ok _, .error _ => isFalse (by simp)
  | .ok a, .ok b => decidable_of_iff (a = b) (by simp)

/-- Antisymmetry of `≤` on ℤ, needed by the library characterizations
of `List.min?` and `List.max?`. -/
instance : Std.Antisymm (fun x1 x2 : ℤ => x1 ≤ x2) :=
  ⟨@fun _ _ h1 h2 => le_antisymm h1 h2⟩

/-- A profile direction label (the Python strings 'down' / 'up'). -/
inductive Direction
  | up
  | down
deriving DecidableEq

/-- A profile record: a period extended with a direction label. -/
structure Profile where
  begin_datetime : ℤ
  end_datetime : ℤ
  direction : Direction
deriving DecidableEq

/-- The `profile_direction` argument of `identify_profiles` is a Python
string; the recognized values are 'all', 'up' and 'down', and `other`
stands for every other string. -/
inductive ProfileDirection
  | all
  | up
  | down
  | other
deriving DecidableEq

/-- `cable_length.sel(time=slice(begin, end))`: both ends inclusive. -/
def sliceSeries (series : List (ℤ × RFloat)) (b e : ℤ) : List (ℤ × RFloat) :=
  series.filter (fun p => decide (b ≤ p.1) && decide (p.1 ≤ e))

/-- The body of the `for profile in profiles` loop of `identify_profiles`
(utils/profilers.py lines 18-31): the value at the earliest and latest
timestamp of the slice decide the direction (`_start - _stop > 0` is
'down', anything else — including NaN — is 'up'), and the period bounds
are widened by `buffer` seconds. -/
def assignProfile (series : List (ℤ × RFloat)) (buffer : ℤ) (p : Period) :
    Except PyError Profile :=
  let cl := sliceSeries series p.begin_datetime p.end_datetime
  match (cl.map Prod.fst).min?, (cl.map Prod.fst).max? with
  | some tmin, some tmax =>
    let vstart := (List.lookup tmin cl).getD none
    let vstop := (List.lookup tmax cl).getD none
    let dir := if rgt (rsub vstart vstop) (some 0) then Direction.down else Direction.up
    .ok ⟨p.begin_datetime - buffer, p.end_datetime + buffer, dir⟩
  | _, _ => .error .keyError

/-- The direction-independent pipeline of `identify_profiles`
(utils/profilers.py lines 13-31): flat-line flags with the default
window sizes (5, 3), the timestamps whose flag equals 1 (PASS), period
segmentation of those timestamps, and one profile record per period. -/
def identify_profiles_core (cable_length : List (ℤ × RFloat)) (buffer : ℤ)
    (max_allowed_std : ℚ) (min_gap : ℤ) : Except PyError (List Profile) := do
  let flags := flat_line_flags (cable_length.map Prod.snd) max_allowed_std 5 3
  let profiling_times := ((cable_length.map Prod.fst).zip flags).filterMap
    (fun p => if p.2 = 1 then some p.1 else none)
  let profiles ← split_periods profiling_times min_gap
  profiles.mapM (assignProfile cable_length buffer)

/-- `identify_profiles` (utils/profilers.py lines 10-40): the dispatch
on `profile_direction` at lines 33-40 has no fall-through branch, so an
unrecognized value makes the Python function return `None`, modelled as
`.ok none`. -/
def identify_profiles (cable_length : List (ℤ × RFloat))
    (profile_direction : ProfileDirection) (buffer : ℤ)
    (max_allowed_std : ℚ) (min_gap : ℤ) : Except PyError (Option (List Profile)) :=
  match identify_profiles_core cable_length buffer max_allowed_std min_gap with
  | .error e => .error e
  | .ok assigned =>
    match profile_direction with
    | .all => .ok (some assigned)
    | .up => .ok (some (assigned.filter (fun p => p.direction == Direction.up)))
    | .down => .ok (some (assigned.filter (fun p => p.direction == Direction.down)))
    | .other => .ok none

/-- The corrected description of `rate_of_change_test`: a sample is
flagged PASS when its value and its rate are both present and
MISSING_DATA otherwise.  (The HIGH_INTEREST branch of the code requires
`|rate| > std_multiplier * rate.std()`, and `rate.std()` is always NaN
because the rate array always contains the NaN prepended for the first
sample, so the branch is unreachable.) -/
def roc_amended_spec (series : List (ℤ × RFloat)) : List Int :=
  (series.zip (rocRates series)).map
    (fun p => if p.1.2.isSome && p.2.isSome then FLAG.PASS else FLAG.MISSING_DATA)

/-- The positional reading of the `for dt in dts` loop of
`split_periods`: the slice for each entry stops 30 seconds before the
*next* entry, and the final entry's slice is unbounded.  For a strictly
sorted `dts` this coincides with the value-based lookups
(`dts.index(dt)`, `dts[-1]`) performed by `periodOf`; the equivalence is
proved below and the loop invariants are established on this form. -/
def mkStruct (ts : List ℤ) : List ℤ → List Period
  | [] => []
  | [d] => (toPeriod (selTimes ts d none)).toList
  | d :: d' :: rest => (toPeriod (selTimes ts d (some (d' - 30)))).toList ++ mkStruct ts (d' :: rest)

/-! Helper lemmas (shared between claims). -/

theorem rocExceeds_rocRates_false (m : ℚ) (series : List (ℤ × RFloat)) (r : RFloat) :
    rocExceeds m (rocRates series) r = false := by
  cases r with
  | none => rfl
  | some q => simp [rocExceeds, rocRates]

theorem rate_of_change_eq_amended (series : List (ℤ × RFloat)) (m : ℚ) :
    rate_of_change_test series m = roc_amended_spec series := by
  simp only [rate_of_change_test, roc_amended_spec]
  refine List.map_congr_left ?_
  intro p _
  simp only [rocExceeds_rocRates_false, Bool.not_false, if_true, if_false]
  cases hp1 : p.1.2 <;> cases hp2 : p.2 <;> simp

/-! Claim theorems. -/

/-- Claim C1 (code_bug evidence): on the spec's gross-range scenario
`[1, 5, 12]` with `sensor_min = 0`, `sensor_max = 10` and no operator
bounds, the code flags every sample PASS — including the out-of-range
value 12 — because the baseline FAIL condition of `gross_range_test`
(`flag.where((data > sensor_min) | (data < sensor_max), FAIL)`) can only
fire when `value ≤ sensor_min ∧ value ≥ sensor_max`, which is
unsatisfiable for `sensor_min < sensor_max`. -/
theorem gross_range_baseline_eval :
    gross_range_test [some 1, some 5, some 12] 0 10 none none =
      [FLAG.PASS, FLAG.PASS, FLAG.PASS] ∧ FLAG.PASS ≠ FLAG.FAIL := by
  decide

/-- Claim C2 (code_bug evidence): on the spec's location scenario the
code returns PASS for `(lat=91, lon=0)` and `(lat=45, lon=200)` — the
FAIL write of `location_test` requires *both* magnitudes out of range
(`flag.where((|lat| < 90) | (|lon| < 180), FAIL)`), not either. -/
theorem location_scenario_eval :
    location_test [(0, some 91), (1, some 45), (2, some 45)]
        [(0, some 0), (1, some 200), (2, some 90)] =
      [(0, FLAG.PASS), (1, FLAG.PASS), (2, FLAG.PASS)] ∧ FLAG.PASS ≠ FLAG.FAIL := by
  decide

/-- Claim C3 (code_bug evidence): on a series with no break point
(timestamps `[0, 10, 20]`, `min_gap = 60`) `split_periods` raises
`IndexError` at `dts[0]` (utils/core.py line 92) instead of reaching the
single-period fallback of lines 111-114. -/
theorem split_periods_no_breakpoints_raises :
    split_periods [0, 10, 20] 60 = .error .indexError := by
  decide

/-- Claim C4 (counterexample): for the series `[(0s,0), (1s,1), (2s,2)]`
with `std_multiplier = 2`, the rates are `[NaN, 1, 1]`; the threshold
comparison `|rate| > 2·std(rates)` is false at sample 1 (the std of a
rate array containing NaN is NaN), yet the flag is PASS, not the
HIGH_INTEREST the claim assigns to the non-exceeding branch. -/
theorem rate_of_change_counterexample :
    rocRates [(0, some 0), (1, some 1), (2, some 2)] = [none, some 1, some 1] ∧
    rocExceeds 2 (rocRates [(0, some 0), (1, some 1), (2, some 2)]) (some 1) = false ∧
    rate_of_change_test [(0, some 0), (1, some 1), (2, some 2)] 2 =
      [FLAG.MISSING_DATA, FLAG.PASS, FLAG.PASS] ∧
    FLAG.PASS ≠ FLAG.HIGH_INTEREST := by
  refine ⟨?_, rocExceeds_rocRates_false 2 _ _, ?_, by decide⟩
  · norm_num [rocRates, rdiv, rsub]
  · norm_num [rate_of_change_test, rocRates, rocExceeds, rdiv, rsub,
      FLAG.PASS, FLAG.MISSING_DATA, FLAG.NOT_EVALUATED]

/-- Claim C4 (amended): every sample of `rate_of_change_test` whose
value and rate are both present is flagged PASS, and every other sample
MISSING_DATA; the HIGH_INTEREST branch (taken when
`|rate| > std_multiplier * std(rates)`) is unreachable because the rate
array always contains the NaN prepended for the first sample, making its
global standard deviation NaN; in particular no sample is ever FAIL. -/
theorem rate_of_change_amended (series : List (ℤ × RFloat)) (m : ℚ) :
    rate_of_change_test series m = roc_amended_spec series :=
  rate_of_change_eq_amended series m

/-- Claim C5 (code_bug evidence): the spike reference values of the
series `[0, 0, 10, 0, 0]` with `spike_half_window = 1`.  The rolling
window of `spkref` is trailing, so the reference at position `i` is the
mean of the values at positions `i−2` and `i` — at position 2 this is
`(0 + 10)/2 = 5`, using the sample itself as an endpoint, where the
documented centered window `(n−1, n, n+1)` would give `(0 + 0)/2 = 0`. -/
theorem spike_reference_trailing_eval :
    (List.range 5).map (spikeRefAt [some 0, some 0, some 10, some 0, some 0] 1) =
      [none, none, some 5, some 0, some 5] := by
  norm_num [spikeRefAt, radd, List.range_succ]

/-- Claim C6 (counterexample): a sample whose latitude is missing but
whose longitude is present is flagged PASS by `location_test`, not
MISSING_DATA — the missing-data write requires *both* inputs missing
(`flag.where(~np.isnan(latitude) | ~np.isnan(longitude), MISSING_DATA)`). -/
theorem location_single_missing_counterexample :
    location_test [(0, none)] [(0, some 0)] = [(0, FLAG.PASS)] ∧
    FLAG.PASS ≠ FLAG.MISSING_DATA := by
  decide

/-- Claim C8: the spec's `split_periods` scenario: timestamps
`[0, 10, 20, 400, 410]` with `min_gap = 60` give exactly the two periods
`[0, 20]` (the slice stops at `400 − 30 = 370`, and the last sample at
or before it is 20) and `[400, 410]`. -/
theorem split_periods_scenario :
    split_periods [0, 10, 20, 400, 410] 60 = .ok [⟨0, 20⟩, ⟨400, 410⟩] := by
  decide

/-- Claim C9 (counterexample): for latitude/longitude series of
different lengths (timestamps `[0, 100]` versus `[0]`), `location_test`
raises nothing: it silently evaluates the single common timestamp and
returns a one-sample flag series. -/
theorem location_misaligned_counterexample :
    location_test [(0, some 45), (100, some 46)] [(0, some 90)] = [(0, FLAG.PASS)] := by
  decide

/-- Claim C10: calling `identify_profiles` with a `profile_direction`
outside `{'all', 'up', 'down'}` falls through the dispatch at
utils/profilers.py lines 33-40 and returns Python `None` — the same
computation as `profile_direction='all'` with the resulting profile list
discarded (and any exception of the pipeline still propagating). -/
theorem identify_profiles_unknown_direction (series : List (ℤ × RFloat))
    (b : ℤ) (m : ℚ) (g : ℤ) :
    identify_profiles series ProfileDirection.other b m g =
      Except.map (fun _ => (none : Option (List Profile)))
        (identify_profiles series ProfileDirection.all b m g) := by
  unfold identify_profiles
  cases identify_profiles_core series b m g <;> rfl

theorem lookup_isSome_iff (t : ℤ) (l : List (ℤ × RFloat)) :
    (List.lookup t l).isSome = true ↔ t ∈ l.map Prod.fst := by
  induction l with
  | nil => simp [List.lookup]
  | cons p rest ih =>
    rcases p with ⟨k, v⟩
    by_cases hk : t = k
    · subst hk
      simp [List.lookup]
    · have hbeq : (t == k) = false := by simpa using hk
      simp [List.lookup, hbeq, hk, ih]

/-- Claim C9 (amended): `location_test` performs no alignment check and
raises nothing; the xarray element-wise operations silently align the
two inputs, so for *every* pair of inputs — equal-length or not — the
output flag series covers exactly the latitude timestamps that also
occur among the longitude timestamps, in latitude order. -/
theorem location_alignment_amended (lats lons : List (ℤ × RFloat)) :
    (location_test lats lons).map Prod.fst =
      (lats.map Prod.fst).filter (fun t => decide (t ∈ lons.map Prod.fst)) := by
  induction lats with
  | nil => rfl
  | cons p rest ih =>
    cases hl : List.lookup p.1 lons with
    | none =>
      have hmem : ¬ p.1 ∈ lons.map Prod.fst := by
        rw [← lookup_isSome_iff, hl]
        simp
      simpa [location_test, alignedPairs, List.filterMap_cons, hl, hmem]
        using ih
    | some lo =>
      have hmem : p.1 ∈ lons.map Prod.fst := by
        rw [← lookup_isSome_iff, hl]
        rfl
      simpa [location_test, alignedPairs, List.filterMap_cons, hl, hmem]
        using ih

theorem radd_none_right (x : RFloat) : radd x none = none := by
  cases x <;> rfl

theorem getElem?_zip_some {α β : Type} {as : List α} {bs : List β} {i : Nat}
    {a : α} {b : β} (ha : as[i]? = some a) (hb : bs[i]? = some b) :
    (as.zip bs)[i]? = some (a, b) := by
  simp [List.getElem?_zip_eq_some]
  exact ⟨ha, hb⟩

theorem rocRates_length (series : List (ℤ × RFloat)) (h : series ≠ []) :
    (rocRates series).length = series.length := by
  cases series with
  | nil => exact absurd rfl h
  | cons a rest => simp [rocRates]

theorem gross_range_missing (data : List RFloat) (smin smax : ℚ)
    (omin omax : Option ℚ) (i : Nat) (h : data[i]? = some none) :
    (gross_range_test data smin smax omin omax)[i]? = some FLAG.MISSING_DATA := by
  unfold gross_range_test
  rw [List.getElem?_map, h]
  rfl

theorem roc_missing (series : List (ℤ × RFloat)) (m : ℚ) (i : Nat) (t : ℤ)
    (h : series[i]? = some (t, none)) :
    (rate_of_change_test series m)[i]? = some FLAG.MISSING_DATA := by
  rw [rate_of_change_eq_amended]
  have hi : i < series.length := by
    rcases List.getElem?_eq_some_iff.mp h with ⟨hi, _⟩
    exact hi
  have hne : series ≠ [] := by
    intro he
    rw [he] at hi
    exact absurd hi (by simp)
  have hri : i < (rocRates series).length := by
    rw [rocRates_length series hne]
    exact hi
  have hr : (rocRates series)[i]? = some (rocRates series)[i] :=
    List.getElem?_eq_getElem hri
  unfold roc_amended_spec
  rw [List.getElem?_map, getElem?_zip_some h hr]
  rfl

theorem spike_missing (series : List (ℤ × RFloat)) (h s : Nat) (lm hm : ℚ)
    (i : Nat) (t : ℤ) (hit : (sortTime series)[i]? = some (t, none))
    (hwin : (centeredWindow ((sortTime series).map Prod.snd) s i).reduceOption ≠ []) :
    (spike_test series h s lm hm)[i]? = some FLAG.MISSING_DATA := by
  have hvi : ((sortTime series).map Prod.snd)[i]? = some none := by
    rw [List.getElem?_map, hit]
    rfl
  have hi : i < ((sortTime series).map Prod.snd).length := by
    rcases List.getElem?_eq_some_iff.mp hvi with ⟨hi, _⟩
    exact hi
  unfold spike_test
  rw [List.getElem?_map, List.getElem?_range hi]
  have hd : ((sortTime series).map Prod.snd).getD i none = none := by
    rw [List.getD_eq_getElem?_getD, hvi]
    rfl
  have href : spikeRefAt ((sortTime series).map Prod.snd) h i = none := by
    simp [spikeRefAt, hit, radd_none_right]
  have hv : (spikeSdVar ((sortTime series).map Prod.snd) s i).isSome = true := by
    simp [spikeSdVar, List.isEmpty_iff, hwin]
  simp [spikeFlagAt, hit, href, hv]

theorem location_both_missing (lats lons : List (ℤ × RFloat)) (i : Nat) (t : ℤ)
    (h : (alignedPairs lats lons)[i]? = some (t, none, none)) :
    (location_test lats lons)[i]? = some (t, FLAG.MISSING_DATA) := by
  unfold location_test
  rw [List.getElem?_map, h]
  rfl

theorem flat_line_no_missing (series : List (ℤ × RFloat)) (m : ℚ) (fw sw : Nat)
    (p : ℤ × Int) (hp : p ∈ flat_line_test series m fw sw) :
    p.2 = FLAG.PASS ∨ p.2 = FLAG.SUSPECT ∨ p.2 = FLAG.FAIL := by
  have h2 : p.2 ∈ flat_line_flags (series.map Prod.snd) m fw sw :=
    (List.of_mem_zip hp).2
  unfold flat_line_flags at h2
  rcases List.mem_map.mp h2 with ⟨j, _, hj⟩
  rw [← hj]
  unfold flat_line_flagAt
  cases hsus : stdLe (trailingWindow (series.map Prod.snd) (2 * sw + 1) j) m <;>
    cases hfail : stdLe (trailingWindow (series.map Prod.snd) (2 * fw + 1) j) m <;>
      simp [FLAG.PASS, FLAG.SUSPECT, FLAG.FAIL, FLAG.NOT_EVALUATED]

/-- Claim C6 (amended): missing dominance holds unconditionally for the
gross range and rate-of-change tests; for the spike test it holds
whenever the sample's centered std window contains at least one present
value (an all-missing window makes the thresholds NaN and the final
override rewrites the flag to NOT_EVALUATED); the location test assigns
MISSING_DATA exactly to samples where latitude and longitude are *both*
missing; and the flat-line test never assigns MISSING_DATA — its flags
are always PASS, SUSPECT or FAIL. -/
theorem missing_dominance_amended :
    (∀ (data : List RFloat) (smin smax : ℚ) (omin omax : Option ℚ) (i : Nat),
        data[i]? = some none →
        (gross_range_test data smin smax omin omax)[i]? = some FLAG.MISSING_DATA) ∧
    (∀ (series : List (ℤ × RFloat)) (m : ℚ) (i : Nat) (t : ℤ),
        series[i]? = some (t, none) →
        (rate_of_change_test series m)[i]? = some FLAG.MISSING_DATA) ∧
    (∀ (series : List (ℤ × RFloat)) (h s : Nat) (lm hm : ℚ) (i : Nat) (t : ℤ),
        (sortTime series)[i]? = some (t, none) →
        (centeredWindow ((sortTime series).map Prod.snd) s i).reduceOption ≠ [] →
        (spike_test series h s lm hm)[i]? = some FLAG.MISSING_DATA) ∧
    (∀ (lats lons : List (ℤ × RFloat)) (i : Nat) (t : ℤ),
        (alignedPairs lats lons)[i]? = some (t, none, none) →
        (location_test lats lons)[i]? = some (t, FLAG.MISSING_DATA)) ∧
    (∀ (series : List (ℤ × RFloat)) (m : ℚ) (fw sw : Nat) (p : ℤ × Int),
        p ∈ flat_line_test series m fw sw →
        p.2 = FLAG.PASS ∨ p.2 = FLAG.SUSPECT ∨ p.2 = FLAG.FAIL) :=
  ⟨gross_range_missing, roc_missing, spike_missing, location_both_missing,
    flat_line_no_missing⟩

/-- Concrete instantiation of every part of the amended missing-dominance
statement: a missing sample of each test evaluated on a small series. -/
theorem missing_dominance_amended_witness :
    ((gross_range_test [none] 0 1 none none)[0]? = some FLAG.MISSING_DATA) ∧
    ((rate_of_change_test [(0, none)] 2)[0]? = some FLAG.MISSING_DATA) ∧
    ((spike_test [(0, some 1), (1, none), (2, some 3)] 1 1 3 5)[1]? =
      some FLAG.MISSING_DATA) ∧
    ((location_test [(0, none)] [(0, none)])[0]? = some (0, FLAG.MISSING_DATA)) ∧
    (((0 : ℤ), FLAG.FAIL).2 = FLAG.PASS ∨ ((0 : ℤ), FLAG.FAIL).2 = FLAG.SUSPECT ∨
      ((0 : ℤ), FLAG.FAIL).2 = FLAG.FAIL) :=
  ⟨missing_dominance_amended.1 [none] 0 1 none none 0 (by decide),
   missing_dominance_amended.2.1 [(0, none)] 2 0 0 (by decide),
   missing_dominance_amended.2.2.1 [(0, some 1), (1, none), (2, some 3)] 1 1 3 5 1 1
     (by decide) (by decide),
   missing_dominance_amended.2.2.2.1 [(0, none)] [(0, none)] 0 0 (by decide),
   missing_dominance_amended.2.2.2.2 [(0, some 1)] 0 5 3 (0, FLAG.FAIL)
     (by norm_num [flat_line_test, flat_line_flags, flat_line_flagAt, stdLe,
       trailingWindow, varianceQ, List.range_succ, FLAG.FAIL, FLAG.SUSPECT,
       FLAG.NOT_EVALUATED])⟩

/-! Lemmas for the segmentation invariant (claim C7). -/

theorem min?_specZ {l : List ℤ} {a : ℤ} (h : l.min? = some a) :
    a ∈ l ∧ ∀ b ∈ l, a ≤ b :=
  (List.min?_eq_some_iff (fun _ => le_refl _) (fun _ _ => min_choice _ _)
    (fun _ _ _ => le_min_iff)).mp h

theorem max?_specZ {l : List ℤ} {a : ℤ} (h : l.max? = some a) :
    a ∈ l ∧ ∀ b ∈ l, b ≤ a :=
  (List.max?_eq_some_iff (fun _ => le_refl _) (fun _ _ => max_choice _ _)
    (fun _ _ _ => max_le_iff)).mp h

theorem breakPoints_sublist_tail (g : ℤ) : ∀ l : List ℤ, (breakPoints g l).Sublist l.tail
  | [] => by simp [breakPoints]
  | [_] => by simp [breakPoints]
  | a :: b :: rest => by
    have ih := breakPoints_sublist_tail g (b :: rest)
    show ((if b - a > g then [b] else []) ++ breakPoints g (b :: rest)).Sublist (b :: rest)
    by_cases hg : b - a > g
    · rw [if_pos hg]
      exact ih.cons₂ b
    · rw [if_neg hg, List.nil_append]
      exact ih.cons b

theorem mem_breakPoints_tail {g : ℤ} {l : List ℤ} {x : ℤ}
    (hx : x ∈ breakPoints g l) : x ∈ l.tail :=
  (breakPoints_sublist_tail g l).subset hx

theorem sorted_breakPoints {g : ℤ} {l : List ℤ} (h : l.Pairwise (· < ·)) :
    (breakPoints g l).Pairwise (· < ·) :=
  h.sublist ((breakPoints_sublist_tail g l).trans (List.tail_sublist l))

theorem getLast?_memZ : ∀ {l : List ℤ} {a : ℤ}, l.getLast? = some a → a ∈ l
  | [], _, h => by cases h
  | [x], _, h => by
    simp at h
    simp [h]
  | _ :: y :: ys, a, h => by
    rw [List.getLast?_cons_cons] at h
    exact List.mem_cons_of_mem _ (getLast?_memZ h)

theorem toPeriod_spec {ts : List ℤ} {s : ℤ} {st : Option ℤ} {p : Period}
    (h : toPeriod (selTimes ts s st) = some p) :
    s ≤ p.begin_datetime ∧ p.begin_datetime ≤ p.end_datetime ∧
    p.begin_datetime ∈ ts ∧ p.end_datetime ∈ ts ∧
    ∀ x, st = some x → p.end_datetime ≤ x := by
  rcases hmn : (selTimes ts s st).min? with _ | b
  · simp [toPeriod, hmn] at h
  rcases hmx : (selTimes ts s st).max? with _ | e
  · simp [toPeriod, hmn, hmx] at h
  simp only [toPeriod, hmn, hmx, Option.some.injEq] at h
  have hb := min?_specZ hmn
  have he := max?_specZ hmx
  have hbe : b ≤ e := hb.2 e he.1
  have hbsel := List.mem_filter.mp hb.1
  have hesel := List.mem_filter.mp he.1
  have hbcond := hbsel.2
  have hecond := hesel.2
  rw [Bool.and_eq_true] at hbcond hecond
  have hsb : s ≤ b := of_decide_eq_true hbcond.1
  subst h
  refine ⟨hsb, hbe, hbsel.1, hesel.1, ?_⟩
  intro x hx
  subst hx
  exact of_decide_eq_true hecond.2

theorem periodOf_cons {ts : List ℤ} {d : ℤ} {l : List ℤ} {x : ℤ}
    (hx : x ∈ l) (hs : (d :: l).Pairwise (· < ·)) :
    periodOf ts (d :: l) x = periodOf ts l x := by
  have hdx : d < x := (List.pairwise_cons.mp hs).1 x hx
  have hlne : l ≠ [] := by
    intro hcon
    rw [hcon] at hx
    cases hx
  have hlast : (d :: l).getLast? = l.getLast? := by
    cases l with
    | nil => exact absurd rfl hlne
    | cons y ys => exact List.getLast?_cons_cons
  have hbeq : (d == x) = false := by simp [hdx.ne]
  have hfind : (d :: l).findIdx? (fun v => v == x) =
      (l.findIdx? (fun v => v == x)).map (· + 1) := by
    simp [List.findIdx?_cons, hbeq]
  unfold periodOf
  rw [hlast, hfind]
  cases hfi : l.findIdx? (fun v => v == x) with
  | none => rfl
  | some i => simp

theorem filterMap_periodOf_eq_mkStruct (ts : List ℤ) :
    ∀ dts : List ℤ, dts.Pairwise (· < ·) →
      dts.filterMap (periodOf ts dts) = mkStruct ts dts := by
  intro dts
  induction dts with
  | nil => intro _; rfl
  | cons d l ih =>
    intro hp
    cases l with
    | nil =>
      have hone : periodOf ts [d] d = toPeriod (selTimes ts d none) := by
        unfold periodOf
        simp
      show List.filterMap (periodOf ts [d]) [d] = mkStruct ts [d]
      rw [List.filterMap_cons, hone]
      cases htp : toPeriod (selTimes ts d none) <;> simp [mkStruct, htp]
    | cons d' rest =>
      have hpc := List.pairwise_cons.mp hp
      have hpl : (d' :: rest).Pairwise (· < ·) := hpc.2
      have hhead : periodOf ts (d :: d' :: rest) d =
          toPeriod (selTimes ts d (some (d' - 30))) := by
        unfold periodOf
        have hlast : (d :: d' :: rest).getLast? = (d' :: rest).getLast? :=
          List.getLast?_cons_cons
        have hne : ¬ ((d :: d' :: rest).getLast? = some d) := by
          rw [hlast]
          intro hcontra
          exact absurd (hpc.1 d (getLast?_memZ hcontra)) (lt_irrefl d)
        rw [if_neg hne]
        have hfind0 : (d :: d' :: rest).findIdx? (fun v => v == d) = some 0 := by
          simp [List.findIdx?_cons]
        rw [hfind0]
        simp
      have htail : (d' :: rest).filterMap (periodOf ts (d :: d' :: rest)) =
          (d' :: rest).filterMap (periodOf ts (d' :: rest)) :=
        List.filterMap_congr (fun x hx => periodOf_cons hx hp)
      rw [List.filterMap_cons, hhead]
      cases htp : toPeriod (selTimes ts d (some (d' - 30))) <;>
        simp [mkStruct, htp, htail, ih hpl]

theorem mkStruct_begin_ge (ts : List ℤ) :
    ∀ (l : List ℤ) (d : ℤ), (d :: l).Pairwise (· < ·) →
      ∀ p ∈ mkStruct ts (d :: l), d ≤ p.begin_datetime := by
  intro l
  induction l with
  | nil =>
    intro d _ p hm
    simp only [mkStruct] at hm
    rw [Option.mem_toList] at hm
    exact (toPeriod_spec hm).1
  | cons d' rest ih =>
    intro d hp p hm
    have hpc := List.pairwise_cons.mp hp
    simp only [mkStruct, List.mem_append] at hm
    rcases hm with hm | hm
    · rw [Option.mem_toList] at hm
      exact (toPeriod_spec hm).1
    · have hd' : d' ≤ p.begin_datetime := ih d' hpc.2 p hm
      exact le_of_lt (lt_of_lt_of_le (hpc.1 d' (List.mem_cons_self d' rest)) hd')

theorem mkStruct_props (ts : List ℤ) :
    ∀ dts : List ℤ, ∀ p ∈ mkStruct ts dts,
      p.begin_datetime ≤ p.end_datetime ∧
      p.begin_datetime ∈ ts ∧ p.end_datetime ∈ ts := by
  intro dts
  induction dts with
  | nil => intro p hm; cases hm
  | cons d l ih =>
    intro p hm
    cases l with
    | nil =>
      simp only [mkStruct] at hm
      rw [Option.mem_toList] at hm
      have := toPeriod_spec hm
      exact ⟨this.2.1, this.2.2.1, this.2.2.2.1⟩
    | cons d' rest =>
      simp only [mkStruct, List.mem_append] at hm
      rcases hm with hm | hm
      · rw [Option.mem_toList] at hm
        have := toPeriod_spec hm
        exact ⟨this.2.1, this.2.2.1, this.2.2.2.1⟩
      · exact ih p hm

theorem mkStruct_pairwise (ts : List ℤ) :
    ∀ dts : List ℤ, dts.Pairwise (· < ·) →
      (mkStruct ts dts).Pairwise
        (fun p q => p.end_datetime < q.begin_datetime) := by
  intro dts
  induction dts with
  | nil => intro _; simp [mkStruct]
  | cons d l ih =>
    intro hp
    cases l with
    | nil =>
      cases htp : toPeriod (selTimes ts d none) <;> simp [mkStruct, htp]
    | cons d' rest =>
      have hpc := List.pairwise_cons.mp hp
      have hpl : (d' :: rest).Pairwise (· < ·) := hpc.2
      simp only [mkStruct]
      rw [List.pairwise_append]
      refine ⟨?_, ih hpl, ?_⟩
      · cases htp : toPeriod (selTimes ts d (some (d' - 30))) <;> simp [htp]
      · intro p hpmem q hqmem
        rw [Option.mem_toList] at hpmem
        have hpend : p.end_datetime ≤ d' - 30 :=
          (toPeriod_spec hpmem).2.2.2.2 (d' - 30) rfl
        have hqbegin : d' ≤ q.begin_datetime := mkStruct_begin_ge ts rest d' hpl q hqmem
        omega

/-- Claim C7: for every duplicate-free input accepted by
`split_periods`, the returned periods are strictly ordered and pairwise
non-overlapping (each period ends before the next begins), each period
satisfies `begin_datetime ≤ end_datetime`, and both bounds of every
period are timestamps of the input — in particular every emitted period
selects at least one input sample, so zero-sample candidates are
discarded, never emitted. -/
theorem split_periods_invariant (ts0 : List ℤ) (g : ℤ) (ps : List Period)
    (hnd : ts0.Nodup) (h : split_periods ts0 g = .ok ps) :
    ps.Pairwise (fun p q => p.end_datetime < q.begin_datetime) ∧
    ∀ p ∈ ps, p.begin_datetime ≤ p.end_datetime ∧
      p.begin_datetime ∈ ts0 ∧ p.end_datetime ∈ ts0 := by
  simp only [split_periods] at h
  have hperm : List.Perm (List.insertionSort (fun a b => a ≤ b) ts0) ts0 :=
    List.perm_insertionSort _ _
  set ts := List.insertionSort (fun a b => a ≤ b) ts0 with hts
  have hsorted_le : List.Sorted (fun a b => a ≤ b) ts := List.sorted_insertionSort _ _
  have hnd' : ts.Nodup := hperm.nodup_iff.mpr hnd
  have hsorted : ts.Pairwise (· < ·) := hsorted_le.lt_of_le hnd'
  have hmemts : ∀ x : ℤ, x ∈ ts → x ∈ ts0 := fun x hx => hperm.mem_iff.mp hx
  cases hmin : ts.min? with
  | none => rw [hmin] at h; simp at h
  | some tmin =>
  cases hmax : ts.max? with
  | none => rw [hmin, hmax] at h; simp at h
  | some tmax =>
  rw [hmin, hmax] at h
  cases hbp : breakPoints g ts with
  | nil => rw [hbp] at h; simp at h
  | cons d0 drest =>
  rw [hbp] at h
  simp only [Except.ok.injEq] at h
  have htminspec := min?_specZ hmin
  have htmaxspec := max?_specZ hmax
  have hbp_pw : (d0 :: drest).Pairwise (· < ·) := hbp ▸ sorted_breakPoints hsorted
  have hdts_pw : (if tmin ≠ d0 then tmin :: d0 :: drest else d0 :: drest).Pairwise
      (· < ·) := by
    by_cases hne : tmin ≠ d0
    · rw [if_pos hne]
      rw [List.pairwise_cons]
      refine ⟨?_, hbp_pw⟩
      intro x hx
      have hxbp : x ∈ breakPoints g ts := by rw [hbp]; exact hx
      have hxtail : x ∈ ts.tail := mem_breakPoints_tail hxbp
      cases hts' : ts with
      | nil => rw [hts'] at hmin; cases hmin
      | cons c t =>
        have hc5 : tmin ≤ c := htminspec.2 c (by rw [hts']; exact List.mem_cons_self c t)
        have hcx : c < x := by
          have := hsorted
          rw [hts'] at this
          rw [hts'] at hxtail
          exact (List.pairwise_cons.mp this).1 x hxtail
        omega
    · rw [if_neg hne]
      exact hbp_pw
  set dts := if tmin ≠ d0 then tmin :: d0 :: drest else d0 :: drest with hdts
  have hmk := filterMap_periodOf_eq_mkStruct ts dts hdts_pw
  by_cases hemp : (dts.filterMap (periodOf ts dts)).isEmpty
  · rw [if_pos hemp] at h
    subst h
    constructor
    · simp
    · intro p hp
      rcases List.mem_singleton.mp hp with rfl
      exact ⟨htminspec.2 tmax htmaxspec.1, hmemts _ htminspec.1, hmemts _ htmaxspec.1⟩
  · rw [if_neg hemp] at h
    subst h
    rw [hmk]
    constructor
    · exact mkStruct_pairwise ts dts hdts_pw
    · intro p hp
      have := mkStruct_props ts dts p hp
      exact ⟨this.1, hmemts _ this.2.1, hmemts _ this.2.2⟩

/-- Concrete instantiation of the segmentation invariant: the
duplicate-free input `[0, 10, 20, 400, 410, 800]` with `min_gap = 100`
yields three ordered, non-overlapping periods with in-range bounds. -/
theorem split_periods_invariant_witness :
    ([0, 10, 20, 400, 410, 800] : List ℤ).Nodup ∧
    (split_periods [0, 10, 20, 400, 410, 800] 100 =
      .ok [⟨0, 20⟩, ⟨400, 410⟩, ⟨800, 800⟩]) ∧
    (([⟨0, 20⟩, ⟨400, 410⟩, ⟨800, 800⟩] : List Period).Pairwise
        (fun p q => p.end_datetime < q.begin_datetime) ∧
      ∀ p ∈ ([⟨0, 20⟩, ⟨400, 410⟩, ⟨800, 800⟩] : List Period),
        p.begin_datetime ≤ p.end_datetime ∧
        p.begin_datetime ∈ ([0, 10, 20, 400, 410, 800] : List ℤ) ∧
        p.end_datetime ∈ ([0, 10, 20, 400, 410, 800] : List ℤ)) :=
  ⟨by decide, by decide,
    split_periods_invariant [0, 10, 20, 400, 410, 800] 100
      [⟨0, 20⟩, ⟨400, 410⟩, ⟨800, 800⟩] (by decide) (by decide)⟩

end ONCToolbox
